import Mathlib

/-!
Verification of the scoring engine and campaign ledger of the
`app-embair-web` server (`src/server/index.js`).

The JavaScript code is shallowly embedded: JS strings are Lean `String`s,
JS arrays are `List`s, the campaign ledger (a JSON file holding an array of
campaign records) is a `List Campaign`, and each HTTP handler becomes a pure
function from its inputs and the persisted ledger to the new ledger and the
response.  JS numbers appearing in product prices and scores are modelled by
exact rationals `ℚ`.  Clock reads (`Date.now()`, `new Date().toISOString()`)
and runtime built-ins with environment-dependent output
(`encodeURIComponent`, `Number.prototype.toLocaleString`) are passed in as
explicit parameters.  String primitives are implemented structurally on the
underlying character lists so that every definition evaluates inside the
kernel.
-/

namespace Embair

open scoped List

/-- Lowercasing of a single character as performed by JS
`String.prototype.toLowerCase` on the alphabet this application manipulates
(ASCII letters plus the Spanish accented letters appearing in the catalog
and in the hard-coded keyword lists). -/
def charLowerJS (c : Char) : Char :=
  if 'A' ≤ c ∧ c ≤ 'Z' then Char.ofNat (c.toNat + 32)
  else if c = 'Á' then 'á'
  else if c = 'É' then 'é'
  else if c = 'Í' then 'í'
  else if c = 'Ó' then 'ó'
  else if c = 'Ú' then 'ú'
  else if c = 'Ü' then 'ü'
  else if c = 'Ñ' then 'ñ'
  else c

/-- JS `s.toLowerCase()` (character-by-character lowercasing). -/
def toLowerJS (s : String) : String :=
  ⟨s.data.map charLowerJS⟩

/-- Substring test on character lists: `needle` occurs contiguously in
`hay`.  Implements JS `hay.includes(needle)` (also the anchor-free regular
expression tests `/word/.test(hay)`). -/
def listContains (needle : List Char) : List Char → Bool
  | [] => needle.isEmpty
  | c :: rest => needle.isPrefixOf (c :: rest) || listContains needle rest

/-- JS `hay.includes(needle)`. -/
def containsStr (hay needle : String) : Bool :=
  listContains needle.data hay.data

/-- Test of an anchor-free alternation regex `/w1|w2|.../.test(hay)`:
some alternative occurs as a substring of `hay`. -/
def containsAny (hay : String) (needles : List String) : Bool :=
  needles.any (containsStr hay)

/-- Helper of `tokenize`: accumulates the current (reversed) word while
scanning the characters. -/
def tokenizeGo (cur : List Char) : List Char → List String
  | [] => if cur.isEmpty then [] else [⟨cur.reverse⟩]
  | c :: rest =>
    if c.isWhitespace then
      if cur.isEmpty then tokenizeGo [] rest else ⟨cur.reverse⟩ :: tokenizeGo [] rest
    else tokenizeGo (c :: cur) rest

/-- JS `q.split(/\s+/).filter(Boolean)`: the maximal non-whitespace runs of
`q`, in order (splitting on whitespace runs yields empty strings only at
the ends, and `filter(Boolean)` drops them). -/
def tokenize (q : String) : List String :=
  tokenizeGo [] q.data

/-- JS `s.trim()`: strip whitespace from both ends. -/
def trimJS (s : String) : String :=
  ⟨((s.data.dropWhile Char.isWhitespace).reverse.dropWhile Char.isWhitespace).reverse⟩

/-- A catalog product as consumed by the scoring engine.  Absent or falsy
string fields are modelled by `""` (the code reads them as `p.name || ""`
and so on).  `price := some v` models a price whose JS `Number(p.price)`
conversion yields the (non-`NaN`) number `v`; `price := none` models an
absent price or one that converts to `NaN`. -/
structure Product where
  name : String := ""
  desc : String := ""
  category : String := ""
  subcategory : String := ""
  material : String := ""
  brand : String := ""
  price : Option ℚ := none
  available : String := ""
deriving DecidableEq, Repr

/-- Per-product score of `findBestProductMatchForText` (src/server/index.js
lines 612-621): for each whitespace token of the lowercased query, +3 when
it occurs in the lowercased product name and +1 when it occurs in the
lowercased `name + " " + desc`. -/
def matchScore (text : String) (p : Product) : Nat :=
  let q := toLowerJS text
  let name := toLowerJS p.name
  let hay := toLowerJS (p.name ++ " " ++ p.desc)
  let words := tokenize q
  words.foldl
    (fun acc w =>
      acc + (if containsStr name w then 3 else 0)
          + (if containsStr hay w then 1 else 0)) 0

/-- The accumulator loop of `findBestProductMatchForText` (lines 610-626):
`best`/`bestScore` start as `null`/`0` and are replaced exactly when a
product scores strictly more than the current best. -/
def matchBestGo (sc : Product → Nat) : List Product → Option Product → Nat → Option Product × Nat
  | [], best, bestScore => (best, bestScore)
  | p :: rest, best, bestScore =>
    if bestScore < sc p then matchBestGo sc rest (some p) (sc p)
    else matchBestGo sc rest best bestScore

/-- Embedding of `findBestProductMatchForText(text, products)`
(src/server/index.js lines 607-629). -/
def findBestProductMatchForText (text : String) (products : List Product) : Option Product :=
  let r := matchBestGo (matchScore text) products none 0
  if r.2 = 0 then none else r.1

/-- Keyword alternatives of the illumination regex
`/lámpara|lampara|iluminación|iluminacion|foco|bombillo/` (line 644). -/
def lightKeywords : List String :=
  ["lámpara", "lampara", "iluminación", "iluminacion", "foco", "bombillo"]

/-- Keyword alternatives of the plumbing regex
`/tubo|agua|llave|grifo|grifería|griferia|sifón|sifon/` (line 645). -/
def plumbKeywords : List String :=
  ["tubo", "agua", "llave", "grifo", "grifería", "griferia", "sifón", "sifon"]

/-- Availability gate of `recommendProductsForQueryText` (line 637): the
product is skipped when `p.available` is truthy and differs from the
literal `"Disponible"`. -/
def eligible (p : Product) : Bool :=
  !(p.available ≠ "" && p.available ≠ "Disponible")

/-- The searched haystack of `recommendProductsForQueryText` (line 638). -/
def recHay (p : Product) : String :=
  toLowerJS (p.name ++ " " ++ p.desc ++ " " ++ p.category ++ " " ++ p.subcategory
    ++ " " ++ p.material ++ " " ++ p.brand)

/-- Price contribution (lines 646-649): `min(Number(p.price)/1000, 5)` when
the price is present and numeric, otherwise nothing. -/
def priceBoost (p : Product) : ℚ :=
  match p.price with
  | none => 0
  | some v => min (v / 1000) 5

/-- Per-product score of `recommendProductsForQueryText` (lines 639-649):
base 1 for a token-less query, +3 per token occurring in the haystack,
+4 domain boosts, plus the price boost. -/
def recScore (query : String) (p : Product) : ℚ :=
  let q := toLowerJS query
  let words := tokenize q
  let hay := recHay p
  let s0 : ℚ := if words.isEmpty then 1 else 0
  let s1 := words.foldl (fun acc w => if containsStr hay w then acc + 3 else acc) s0
  let s2 := if containsAny q lightKeywords && (p.category == "Electricidad") then s1 + 4 else s1
  let s3 := if containsAny q plumbKeywords && (p.category == "Plomería") then s2 + 4 else s2
  s3 + priceBoost p

/-- The `filtered` array built by lines 635-653: the loop walks the catalog
in order, skips ineligible products, and pushes `{p, score}` exactly when
the computed score is strictly positive. -/
def recCandidates (query : String) : List Product → List (Product × ℚ)
  | [] => []
  | p :: rest =>
    if eligible p = true ∧ 0 < recScore query p then
      (p, recScore query p) :: recCandidates query rest
    else recCandidates query rest

/-- Insertion step of the stable descending sort: `x` is placed in front of
the first element whose score is not larger, so among equal scores earlier
elements stay first. -/
def insertDesc (x : Product × ℚ) : List (Product × ℚ) → List (Product × ℚ)
  | [] => [x]
  | y :: rest => if y.2 ≤ x.2 then x :: y :: rest else y :: insertDesc x rest

/-- Stable sort by strictly descending score.  This models
`filtered.sort((a, b) => b.score - a.score)` (line 654): JS
`Array.prototype.sort` is specified to be stable, and a stable insertion
sort realizes the same (unique) stable reordering. -/
def sortDesc : List (Product × ℚ) → List (Product × ℚ)
  | [] => []
  | x :: rest => insertDesc x (sortDesc rest)

/-- Embedding of `recommendProductsForQueryText(query, products)`
(src/server/index.js lines 631-656). -/
def recommendProductsForQueryText (query : String) (products : List Product) : List Product :=
  ((sortDesc (recCandidates query products)).take 4).map Prod.fst

/-! Reply synthesis (`buildAssistantReplyForWhatsApp`, lines 658-723).
The JS builtin `Number.prototype.toLocaleString("es-AR")` used to render
prices depends on the runtime's locale data, so the renderer is
parameterized by a formatting function `fmt : ℚ → String`. -/

/-- Fixed greeting returned for an empty or whitespace-only message
(lines 660-662). -/
def greetingMsg : String :=
  "Hola, soy tu asistente de compras de EMBAIR. Cuéntame qué necesitas y buscaré productos en el catálogo mayorista para ayudarte."

/-- Clarifying question of the panel rule (lines 664-666). -/
def panelAskMsg : String :=
  "Para ayudarte mejor con tableros, indícame si lo necesitas empotrado o de superficie y para cuántos módulos aproximadamente."

/-- Installation-type qualifiers of the panel rule: the alternatives of
`/empotrado|superficie|m[oó]dulo|modulo/` (line 664). -/
def panelQualifierKeywords : List String :=
  ["empotrado", "superficie", "módulo", "modulo"]

/-- Fixed reply for an empty catalog (lines 668-670). -/
def noProductsMsg : String :=
  "Por ahora no tengo productos cargados en el catálogo. Intenta de nuevo más tarde o contacta directamente con un asesor."

/-- Availability-inquiry keywords: the alternatives of
`/disponible|tienes|tienen|hay|stock/` (line 671). -/
def availabilityKeywords : List String :=
  ["disponible", "tienes", "tienen", "hay", "stock"]

/-- Generic fallback when `recommendProductsForQueryText` finds nothing
(lines 703-705). -/
def notFoundMsg : String :=
  "Con lo que me cuentas no encontré algo claro en el catálogo. Prueba explicando qué ambiente o instalación quieres armar (por ejemplo: iluminación de sala, cambio de grifería de baño, tablero para apartamento)."

/-- Price line of one rendered suggestion (lines 686-691 and 713-718). -/
def priceLine (fmt : ℚ → String) (p : Product) : String :=
  match p.price with
  | some v => " - Precio aprox: $" ++ fmt v
  | none => " - Precio: solicitar cotización"

/-- One bulleted suggestion line (lines 680-692 and 707-719): name plus an
optional `(category • subcategory • material)` descriptor plus the price
line. -/
def renderItem (fmt : ℚ → String) (p : Product) : String :=
  let parts := (if p.category ≠ "" then [p.category] else [])
    ++ (if p.subcategory ≠ "" then [p.subcategory] else [])
    ++ (if p.material ≠ "" then [p.material] else [])
  let desc := if parts.isEmpty then "" else " (" ++ String.intercalate " • " parts ++ ")"
  "• *" ++ p.name ++ "*" ++ desc ++ priceLine fmt p ++ "\n"

/-- The synthetic query used for alternatives in the out-of-stock branch:
`` `${prod.category || ""} ${prod.subcategory || ""}` `` (line 675). -/
def altQuery (prod : Product) : String :=
  prod.category ++ " " ++ prod.subcategory

/-- Alternatives recommended in the out-of-stock branch (line 676). -/
def altRecommendations (prod : Product) (products : List Product) : List Product :=
  recommendProductsForQueryText (altQuery prod) products

/-- Out-of-stock reply of the availability branch (lines 674-697). -/
def outOfStockMsg (fmt : ℚ → String) (prod : Product) (products : List Product) : String :=
  let recsAlt := altRecommendations prod products
  let base := "Ese producto figura como *agotado* en el catálogo: *" ++ prod.name ++ "*.\n"
  if !recsAlt.isEmpty then
    base ++ "\n*Opciones alternativas que podrían servirte:*\n"
      ++ String.join (recsAlt.map (renderItem fmt))
  else
    base ++ "\nSi quieres puedo buscarte alternativas similares si me das más detalles."

/-- In-stock confirmation of the availability branch (line 699). -/
def inStockMsg (prod : Product) : String :=
  "Sí, en el catálogo figura como *disponible*: *" ++ prod.name ++ "*.\n\nPuedes buscarlo por nombre o código en la app mayorista o indicarme si quieres que te sugiera complementos."

/-- Bulleted suggestion list of the final rule (lines 706-721). -/
def suggestMsg (fmt : ℚ → String) (recs : List Product) : String :=
  "*Te sugiero estos productos según lo que comentas:*\n\n"
    ++ String.join (recs.map (renderItem fmt))
    ++ "\nSi te interesa alguno, responde con el nombre o código y te ayudo a afinar la lista."

/-- The last rule of the cascade (lines 702-722): recommend on the trimmed
message, with the generic fallback when nothing is recommended. -/
def recommendReply (fmt : ℚ → String) (text : String) (products : List Product) : String :=
  let recs := recommendProductsForQueryText text products
  if recs.isEmpty then notFoundMsg else suggestMsg fmt recs

/-- Embedding of `buildAssistantReplyForWhatsApp(message, products)`
(src/server/index.js lines 658-723).  The early returns of the source
become nested alternatives, preserving the evaluation order. -/
def buildAssistantReplyForWhatsApp (fmt : ℚ → String) (message : String) (products : List Product) : String :=
  let text := trimJS message
  if text = "" then greetingMsg
  else
    let lower := toLowerJS text
    if containsStr lower "tablero" && !containsAny lower panelQualifierKeywords then
      panelAskMsg
    else if products.isEmpty then noProductsMsg
    else
      let availHit :=
        if containsAny lower availabilityKeywords then
          findBestProductMatchForText text products
        else none
      match availHit with
      | some prod =>
        if prod.available ≠ "" && prod.available ≠ "Disponible" then
          outOfStockMsg fmt prod products
        else inStockMsg prod
      | none => recommendReply fmt text products

/-! Campaign ledger (`data/campaigns.json`) and its operations.  A ledger
mutation in the source is `readData(campaignsFile)` followed by a
`writeData` of the modified array; each embedded operation therefore maps
the ledger it reads to the ledger it persists.  `Date.now()` and
`new Date().toISOString()` are passed in as `nowMs`/`nowIso`. -/

/-- One campaign record as created by the send and public endpoints.  The
JS objects `opens`/`clicks` (email → ISO timestamp) are association lists. -/
structure Campaign where
  id : String
  date : String
  subject : String
  pdfUrl : String
  total : Nat
  sent : Nat
  opens : List (String × String)
  clicks : List (String × String)
  type : Option String := none
deriving DecidableEq, Repr

/-- Response shapes of `POST /api/campaign/send` (lines 142-216). -/
inductive SendResponse
  | missingFields
  | smtpError (details response : String)
  | sendingStarted (id : String)
deriving DecidableEq, Repr

/-- The pending campaign record built on lines 150-159. -/
def mkBulkCampaign (subject pdfUrl : String) (total : Nat) (nowMs : Nat) (nowIso : String) : Campaign :=
  { id := Nat.repr nowMs
    date := nowIso
    subject := subject
    pdfUrl := pdfUrl
    total := total
    sent := 0
    opens := []
    clicks := [] }

/-- Validation and initial persist of `POST /api/campaign/send`
(lines 145-164): missing fields are rejected, otherwise the new record is
unshifted onto the ledger and written before any network I/O. -/
def campaignSendStart (subject pdfUrl : String) (emails : List String) (nowMs : Nat) (nowIso : String)
    (ledger : List Campaign) : Except SendResponse (Campaign × List Campaign) :=
  if subject = "" ∨ pdfUrl = "" ∨ emails = [] then .error .missingFields
  else
    let c := mkBulkCampaign subject pdfUrl emails.length nowMs nowIso
    .ok (c, c :: ledger)

/-- The provider-reported failure of `transporter.verify()`. -/
structure SmtpFailure where
  message : String
  response : String
deriving DecidableEq, Repr

/-- The catch block of the SMTP connectivity probe (lines 185-197): the
ledger is re-read (`current` is whatever is persisted at that moment), the
just-created record is filtered out by id and the result written back, and
a 400 response carrying the provider-reported detail is returned. -/
def campaignSendVerifyCatch (campaignId : String) (e : SmtpFailure) (current : List Campaign) :
    List Campaign × SendResponse :=
  (current.filter (fun x => x.id ≠ campaignId), .smtpError e.message e.response)

/-- Count of successful sends performed by the per-recipient loop
(lines 218-252): each recipient's attempt either resolves (`true`,
`sentCount++`) or throws (`false`, logged and skipped — the loop
continues with the remaining recipients either way). -/
def sendLoopSentCount : List (String × Bool) → Nat
  | [] => 0
  | (_, ok) :: rest => (if ok then 1 else 0) + sendLoopSentCount rest

/-- The final write of the send loop (lines 254-260): the ledger is re-read
fresh (`current` is whatever is persisted once the loop ends, including any
tracking-event writes made meanwhile), the first record matching the
campaign id gets `sent := n`, and the result is persisted; with no match
nothing changes. -/
def updateSentCount (campaignId : String) (n : Nat) : List Campaign → List Campaign
  | [] => []
  | c :: rest =>
    if c.id = campaignId then { c with sent := n } :: rest
    else c :: updateSentCount campaignId n rest

/-- Composition of the send loop and its final ledger write. -/
def campaignSendFinish (campaignId : String) (attempts : List (String × Bool))
    (current : List Campaign) : List Campaign :=
  updateSentCount campaignId (sendLoopSentCount attempts) current

/-- Base64 payload of the fixed 1×1 transparent GIF returned by the open
tracker (line 275). -/
def pixelGifBase64 : String :=
  "R0lGODlhAQABAIAAAAAAAP///yH5BAEAAAAALAAAAAABAAEAAAIBRAA7"

/-- JS truthiness of `map[key]` for a string-valued map: an absent key and
an empty-string value are both falsy. -/
def truthyEntry (m : List (String × String)) (k : String) : Bool :=
  match m.lookup k with
  | some v => v ≠ ""
  | none => false

/-- Assignment `map[key] = value` on an association list. -/
def setEntry (k v : String) : List (String × String) → List (String × String)
  | [] => [(k, v)]
  | (k', v') :: rest => if k' = k then (k, v) :: rest else (k', v') :: setEntry k v rest

/-- Per-campaign effect of `GET /api/track/open/:id/:email` (lines 267-273):
stamp the timestamp only when the `(id, email)` pair has no truthy entry
yet. -/
def stampOpen (email now : String) (c : Campaign) : Campaign :=
  if truthyEntry c.opens email then c else { c with opens := setEntry email now c.opens }

/-- Ledger effect of `GET /api/track/open/:id/:email` (lines 263-273): the
first campaign matching the id (as found by `campaigns.find`) is stamped;
an unknown id changes nothing. -/
def trackOpenLedger (id email now : String) : List Campaign → List Campaign
  | [] => []
  | c :: rest =>
    if c.id = id then stampOpen email now c :: rest
    else c :: trackOpenLedger id email now rest

/-- Embedding of `GET /api/track/open/:id/:email` (lines 263-281): the
ledger effect together with the response, which is the fixed transparent
pixel whether or not the campaign exists. -/
def trackOpen (id email now : String) (ledger : List Campaign) : List Campaign × String :=
  (trackOpenLedger id email now ledger, pixelGifBase64)

/-- Per-campaign effect of `GET /api/track/link/:id/:email` (lines 442-446). -/
def stampClick (email now : String) (c : Campaign) : Campaign :=
  if truthyEntry c.clicks email then c else { c with clicks := setEntry email now c.clicks }

/-- Ledger effect of `GET /api/track/link/:id/:email` (lines 437-452). -/
def trackClickLedger (id email now : String) : List Campaign → List Campaign
  | [] => []
  | c :: rest =>
    if c.id = id then stampClick email now c :: rest
    else c :: trackClickLedger id email now rest

/-- Response shapes of `POST /api/campaign/public` (lines 393-423). -/
inductive PublicResponse
  | missingFields
  | created (id link : String)
deriving DecidableEq, Repr

/-- The QR campaign record built on lines 397-408: distinctly prefixed id,
`total = 0`, no recipients, marked `type: "qr"`. -/
def mkQrCampaign (subject pdfUrl : String) (nowMs : Nat) (nowIso : String) : Campaign :=
  { id := "qr-" ++ Nat.repr nowMs
    date := nowIso
    subject := subject
    pdfUrl := pdfUrl
    total := 0
    sent := 0
    opens := []
    clicks := []
    type := some "qr" }

/-- Embedding of `POST /api/campaign/public` (lines 393-423): validation,
unshift-and-persist of the QR record, and the shareable link response. -/
def campaignPublic (subject pdfUrl baseUrl : String) (nowMs : Nat) (nowIso : String)
    (ledger : List Campaign) : List Campaign × PublicResponse :=
  if subject = "" ∨ pdfUrl = "" then (ledger, .missingFields)
  else
    let c := mkQrCampaign subject pdfUrl nowMs nowIso
    (c :: ledger, .created c.id (baseUrl ++ "/api/public/go/" ++ c.id))

/-- Response shapes of `GET /api/public/go/:id` (lines 425-435). -/
inductive GoResponse
  | redirect (url : String)
  | notFound
deriving DecidableEq, Repr

/-- Embedding of `GET /api/public/go/:id` (lines 425-435): look up the
campaign and redirect to the download landing page with the campaign id and
pdf URL as query parameters; the handler performs no write, so the ledger
component of the result is the ledger that was read.  `enc` is the JS
builtin `encodeURIComponent`. -/
def publicGo (enc : String → String) (id : String) (ledger : List Campaign) :
    List Campaign × GoResponse :=
  match ledger.find? (fun c => c.id == id) with
  | some c => (ledger, .redirect ("/download.html?cid=" ++ enc id ++ "&pdf=" ++ enc c.pdfUrl))
  | none => (ledger, .notFound)

/-! Concrete sample data used by counterexamples and witnesses. -/

/-- An out-of-stock drill: `available` is truthy and differs from
`"Disponible"`. -/
def pTaladro : Product :=
  { name := "Taladro", available := "Agotado" }

/-- An eligible product with a negative price: its empty-query score is
`1 + min(-5000/1000, 5) = -4 ≤ 0`. -/
def pNegPrice : Product :=
  { name := "Oferta", price := some (-5000) }

/-- An in-stock lamp used by concrete checks. -/
def pLampara : Product :=
  { name := "Lampara LED", category := "Electricidad", price := some 2000, available := "Disponible" }

/-! Lemmas about the best-match accumulator loop. -/

theorem matchBestGo_of_le {sc : Product → Nat} :
    ∀ {ps : List Product} {b : Option Product} {s : Nat},
      (∀ x ∈ ps, sc x ≤ s) → matchBestGo sc ps b s = (b, s)
  | [], _, _, _ => rfl
  | p :: rest, b, s, h => by
    have hp : sc p ≤ s := h p (List.mem_cons_self p rest)
    rw [matchBestGo, if_neg (by omega)]
    exact matchBestGo_of_le (fun x hx => h x (List.mem_cons_of_mem p hx))

theorem matchBestGo_first_max {sc : Product → Nat} :
    ∀ (l₁ : List Product) {p : Product} {l₂ : List Product} {b : Option Product} {s : Nat},
      s < sc p → (∀ x ∈ l₁, sc x < sc p) → (∀ x ∈ l₂, sc x ≤ sc p) →
      matchBestGo sc (l₁ ++ p :: l₂) b s = (some p, sc p)
  | [], p, l₂, b, s, hs, _, h₂ => by
    rw [List.nil_append, matchBestGo, if_pos hs]
    exact matchBestGo_of_le h₂
  | x :: l₁, p, l₂, b, s, hs, h₁, h₂ => by
    have hx : sc x < sc p := h₁ x (List.mem_cons_self x l₁)
    rw [List.cons_append, matchBestGo]
    by_cases hc : s < sc x
    · rw [if_pos hc]
      exact matchBestGo_first_max l₁ hx (fun y hy => h₁ y (List.mem_cons_of_mem x hy)) h₂
    · rw [if_neg hc]
      exact matchBestGo_first_max l₁ hs (fun y hy => h₁ y (List.mem_cons_of_mem x hy)) h₂

theorem matchBest_cases (sc : Product → Nat) :
    ∀ (ps : List Product) (s : Nat),
      (∀ x ∈ ps, sc x ≤ s) ∨
      ∃ p l₁ l₂, ps = l₁ ++ p :: l₂ ∧ s < sc p ∧
        (∀ x ∈ l₁, sc x < sc p) ∧ (∀ x ∈ l₂, sc x ≤ sc p)
  | [], _ => .inl (by simp)
  | p :: rest, s => by
    rcases matchBest_cases sc rest s with h | ⟨q, l₁, l₂, hrest, hq, h₁, h₂⟩
    · by_cases hp : sc p ≤ s
      · left
        intro x hx
        rcases List.mem_cons.mp hx with rfl | hx
        · exact hp
        · exact h x hx
      · right
        exact ⟨p, [], rest, rfl, by omega, by simp,
          fun x hx => Nat.le_trans (h x hx) (by omega)⟩
    · by_cases hpq : sc q ≤ sc p
      · right
        refine ⟨p, [], rest, rfl, by omega, by simp, ?_⟩
        intro x hx
        rw [hrest] at hx
        rcases List.mem_append.mp hx with hx | hx
        · exact Nat.le_of_lt (Nat.lt_of_lt_of_le (h₁ x hx) hpq)
        · rcases List.mem_cons.mp hx with rfl | hx
          · exact hpq
          · exact Nat.le_trans (h₂ x hx) hpq
      · right
        refine ⟨q, p :: l₁, l₂, by rw [hrest, List.cons_append], hq, ?_, h₂⟩
        intro x hx
        rcases List.mem_cons.mp hx with rfl | hx
        · omega
        · exact h₁ x hx

theorem findBest_none_iff (text : String) (ps : List Product) :
    findBestProductMatchForText text ps = none ↔ ∀ p ∈ ps, matchScore text p = 0 := by
  unfold findBestProductMatchForText
  rcases matchBest_cases (matchScore text) ps 0 with h | ⟨p, l₁, l₂, hps, hp, h₁, h₂⟩
  · rw [matchBestGo_of_le h]
    constructor
    · intro _ x hx
      exact Nat.le_zero.mp (h x hx)
    · intro _
      rfl
  · rw [hps, matchBestGo_first_max l₁ hp h₁ h₂]
    have hne : matchScore text p ≠ 0 := by omega
    rw [if_neg hne]
    constructor
    · intro hcontra
      exact (Option.some_ne_none p hcontra).elim
    · intro hall
      exact (hne (hall p (by simp))).elim

theorem findBest_some_iff (text : String) (ps : List Product) (p : Product) :
    findBestProductMatchForText text ps = some p ↔
      ∃ l₁ l₂, ps = l₁ ++ p :: l₂ ∧ 0 < matchScore text p ∧
        (∀ x ∈ l₁, matchScore text x < matchScore text p) ∧
        (∀ x ∈ l₂, matchScore text x ≤ matchScore text p) := by
  constructor
  · intro h
    rcases matchBest_cases (matchScore text) ps 0 with hall | ⟨q, l₁, l₂, hps, hq, h₁, h₂⟩
    · rw [findBestProductMatchForText, matchBestGo_of_le hall] at h
      simp at h
    · rw [findBestProductMatchForText, hps, matchBestGo_first_max l₁ hq h₁ h₂] at h
      have hne : matchScore text q ≠ 0 := by omega
      rw [if_neg hne] at h
      obtain rfl : q = p := by simpa using h
      exact ⟨l₁, l₂, hps, hq, h₁, h₂⟩
  · rintro ⟨l₁, l₂, rfl, hp, h₁, h₂⟩
    rw [findBestProductMatchForText, matchBestGo_first_max l₁ hp h₁ h₂]
    have hne : matchScore text p ≠ 0 := by omega
    rw [if_neg hne]

theorem foldl_match_count (A B : String → Bool) :
    ∀ (ws : List String) (s : Nat),
      ws.foldl (fun acc w => acc + (if A w then 3 else 0) + (if B w then 1 else 0)) s
        = s + 3 * ws.countP A + ws.countP B
  | [], s => by simp
  | w :: ws, s => by
    rw [List.foldl_cons, foldl_match_count A B ws, List.countP_cons, List.countP_cons]
    by_cases hA : A w <;> by_cases hB : B w <;> simp [hA, hB] <;> omega

theorem matchScore_eq_counts (text : String) (p : Product) :
    matchScore text p =
      3 * ((tokenize (toLowerJS text)).countP (containsStr (toLowerJS p.name)))
        + 1 * ((tokenize (toLowerJS text)).countP
            (containsStr (toLowerJS (p.name ++ " " ++ p.desc)))) := by
  rw [matchScore, foldl_match_count]
  simp only [Nat.zero_add, Nat.one_mul]

/-! Lemmas about the stable descending sort and the candidate list. -/

theorem insertDesc_perm (x : Product × ℚ) :
    ∀ (l : List (Product × ℚ)), insertDesc x l ~ x :: l
  | [] => List.Perm.refl _
  | y :: rest => by
    rw [insertDesc]
    by_cases h : y.2 ≤ x.2
    · rw [if_pos h]
    · rw [if_neg h]
      exact ((insertDesc_perm x rest).cons y).trans (List.Perm.swap x y rest)

theorem sortDesc_perm : ∀ (l : List (Product × ℚ)), sortDesc l ~ l
  | [] => List.Perm.refl _
  | x :: rest => (insertDesc_perm x (sortDesc rest)).trans ((sortDesc_perm rest).cons x)

theorem pairwise_insertDesc {x : Product × ℚ} :
    ∀ {l : List (Product × ℚ)}, l.Pairwise (fun a b => b.2 ≤ a.2) →
      (insertDesc x l).Pairwise (fun a b => b.2 ≤ a.2)
  | [], _ => by simp [insertDesc]
  | y :: rest, h => by
    rw [insertDesc]
    by_cases hc : y.2 ≤ x.2
    · rw [if_pos hc]
      refine List.Pairwise.cons ?_ h
      intro z hz
      rcases List.mem_cons.mp hz with rfl | hz
      · exact hc
      · exact le_trans ((List.pairwise_cons.mp h).1 z hz) hc
    · rw [if_neg hc]
      refine List.Pairwise.cons ?_ (pairwise_insertDesc (List.pairwise_cons.mp h).2)
      intro z hz
      rcases List.mem_cons.mp ((insertDesc_perm x rest).mem_iff.mp hz) with rfl | hz
      · exact le_of_not_le hc
      · exact (List.pairwise_cons.mp h).1 z hz

theorem sortDesc_pairwise : ∀ (l : List (Product × ℚ)),
    (sortDesc l).Pairwise (fun a b => b.2 ≤ a.2)
  | [] => List.Pairwise.nil
  | _ :: rest => pairwise_insertDesc (sortDesc_pairwise rest)

theorem filter_insertDesc (c : ℚ) (x : Product × ℚ) :
    ∀ (l : List (Product × ℚ)),
      (insertDesc x l).filter (fun z => decide (z.2 = c)) =
        if x.2 = c then x :: l.filter (fun z => decide (z.2 = c))
        else l.filter (fun z => decide (z.2 = c))
  | [] => by
    by_cases h : x.2 = c <;> simp [insertDesc, h]
  | y :: rest => by
    rw [insertDesc]
    by_cases hle : y.2 ≤ x.2
    · rw [if_pos hle]
      by_cases h : x.2 = c <;> simp [h]
    · rw [if_neg hle]
      rw [List.filter_cons, List.filter_cons, filter_insertDesc c x rest]
      by_cases h : x.2 = c
      · have hy : ¬ y.2 = c := by
          intro hyc
          exact hle (le_of_eq (hyc.trans h.symm))
        simp [h, hy]
      · simp [h]

theorem sortDesc_filter_score (c : ℚ) :
    ∀ (l : List (Product × ℚ)),
      (sortDesc l).filter (fun z => decide (z.2 = c)) = l.filter (fun z => decide (z.2 = c))
  | [] => rfl
  | x :: rest => by
    rw [sortDesc, filter_insertDesc c x, sortDesc_filter_score c rest, List.filter_cons]
    by_cases h : x.2 = c <;> simp [h]

theorem mem_recCandidates {q : String} {z : Product × ℚ} :
    ∀ {ps : List Product}, z ∈ recCandidates q ps →
      z.1 ∈ ps ∧ z.2 = recScore q z.1 ∧ 0 < z.2 ∧ eligible z.1 = true
  | [], h => by simp [recCandidates] at h
  | p :: rest, h => by
    rw [recCandidates] at h
    by_cases hc : eligible p = true ∧ 0 < recScore q p
    · rw [if_pos hc] at h
      rcases List.mem_cons.mp h with rfl | h
      · exact ⟨List.mem_cons_self p rest, rfl, hc.2, hc.1⟩
      · obtain ⟨h1, h2, h3, h4⟩ := mem_recCandidates h
        exact ⟨List.mem_cons_of_mem p h1, h2, h3, h4⟩
    · rw [if_neg hc] at h
      obtain ⟨h1, h2, h3, h4⟩ := mem_recCandidates h
      exact ⟨List.mem_cons_of_mem p h1, h2, h3, h4⟩

theorem recCandidates_mem_of {q : String} {p : Product} :
    ∀ {ps : List Product}, p ∈ ps → eligible p = true → 0 < recScore q p →
      (p, recScore q p) ∈ recCandidates q ps
  | [], hp, _, _ => by simp at hp
  | x :: rest, hp, he, hs => by
    rw [recCandidates]
    rcases List.mem_cons.mp hp with rfl | hp
    · rw [if_pos ⟨he, hs⟩]
      exact List.mem_cons_self _ _
    · by_cases hc : eligible x = true ∧ 0 < recScore q x
      · rw [if_pos hc]
        exact List.mem_cons_of_mem (x, recScore q x) (recCandidates_mem_of hp he hs)
      · rw [if_neg hc]
        exact recCandidates_mem_of hp he hs

theorem recCandidates_fst_sublist (q : String) :
    ∀ (ps : List Product), (recCandidates q ps).map Prod.fst <+ ps
  | [] => by simp [recCandidates]
  | p :: rest => by
    rw [recCandidates]
    by_cases hc : eligible p = true ∧ 0 < recScore q p
    · rw [if_pos hc, List.map_cons]
      exact (recCandidates_fst_sublist q rest).cons₂ p
    · rw [if_neg hc]
      exact (recCandidates_fst_sublist q rest).cons p

theorem recommend_length_le (q : String) (ps : List Product) :
    (recommendProductsForQueryText q ps).length ≤ 4 := by
  rw [recommendProductsForQueryText, List.length_map]
  exact List.length_take_le 4 _

theorem eligible_iff {p : Product} :
    eligible p = true ↔ (p.available = "" ∨ p.available = "Disponible") := by
  rw [eligible]
  by_cases h1 : p.available = "" <;> by_cases h2 : p.available = "Disponible" <;>
    simp [h1, h2]

theorem recommend_mem_facts {q : String} {ps : List Product} {p : Product}
    (h : p ∈ recommendProductsForQueryText q ps) :
    p ∈ ps ∧ 0 < recScore q p ∧ (p.available = "" ∨ p.available = "Disponible") := by
  rw [recommendProductsForQueryText] at h
  obtain ⟨z, hz, rfl⟩ := List.mem_map.mp h
  have hz' : z ∈ recCandidates q ps :=
    (sortDesc_perm (recCandidates q ps)).mem_iff.mp (List.mem_of_mem_take hz)
  obtain ⟨h1, h2, h3, h4⟩ := mem_recCandidates hz'
  exact ⟨h1, h2 ▸ h3, eligible_iff.mp h4⟩

theorem recommend_pairwise (q : String) (ps : List Product) :
    (recommendProductsForQueryText q ps).Pairwise (fun a b => recScore q b ≤ recScore q a) := by
  rw [recommendProductsForQueryText, List.pairwise_map]
  have hp : ((sortDesc (recCandidates q ps)).take 4).Pairwise (fun a b => b.2 ≤ a.2) :=
    (sortDesc_pairwise (recCandidates q ps)).sublist (List.take_sublist 4 _)
  refine hp.imp_of_mem ?_
  intro a b ha hb hab
  have ha' := (mem_recCandidates
    ((sortDesc_perm (recCandidates q ps)).mem_iff.mp (List.mem_of_mem_take ha))).2.1
  have hb' := (mem_recCandidates
    ((sortDesc_perm (recCandidates q ps)).mem_iff.mp (List.mem_of_mem_take hb))).2.1
  rw [ha', hb'] at hab
  exact hab

theorem recommend_ties_sublist (q : String) (ps : List Product) (c : ℚ) :
    (recommendProductsForQueryText q ps).filter (fun p => decide (recScore q p = c)) <+ ps := by
  rw [recommendProductsForQueryText]
  rw [List.filter_map]
  have hcongr :
      ((sortDesc (recCandidates q ps)).take 4).filter
          ((fun p => decide (recScore q p = c)) ∘ Prod.fst) =
        ((sortDesc (recCandidates q ps)).take 4).filter (fun z => decide (z.2 = c)) := by
    refine List.filter_congr ?_
    intro z hz
    have hz' := (mem_recCandidates
      ((sortDesc_perm (recCandidates q ps)).mem_iff.mp (List.mem_of_mem_take hz))).2.1
    simp only [Function.comp_apply]
    rw [hz']
  rw [hcongr]
  have h1 : ((sortDesc (recCandidates q ps)).take 4).filter (fun z => decide (z.2 = c)) <+
      (sortDesc (recCandidates q ps)).filter (fun z => decide (z.2 = c)) :=
    (List.take_sublist 4 _).filter _
  rw [sortDesc_filter_score c] at h1
  have h2 : ((recCandidates q ps).filter (fun z => decide (z.2 = c))).map Prod.fst <+
      (recCandidates q ps).map Prod.fst :=
    ((recCandidates q ps).filter_sublist).map Prod.fst
  exact (h1.map Prod.fst).trans (h2.trans (recCandidates_fst_sublist q ps))

/-! Claim theorems for the scoring engine. -/

/-- C1: for every catalog and every query, `recommend(query, catalog)`
returns at most 4 products, every returned product has a strictly positive
computed score, the results are ordered by non-increasing score, and
products with equal scores appear in their original catalog order (for
every score value, the returned products carrying that score form a
subsequence of the catalog). -/
theorem claim_C1 (query : String) (catalog : List Product) :
    (recommendProductsForQueryText query catalog).length ≤ 4 ∧
    (∀ p ∈ recommendProductsForQueryText query catalog, 0 < recScore query p) ∧
    (recommendProductsForQueryText query catalog).Pairwise
      (fun a b => recScore query b ≤ recScore query a) ∧
    (∀ c : ℚ, (recommendProductsForQueryText query catalog).filter
      (fun p => decide (recScore query p = c)) <+ catalog) :=
  ⟨recommend_length_le query catalog,
   fun _ hp => (recommend_mem_facts hp).2.1,
   recommend_pairwise query catalog,
   fun c => recommend_ties_sublist query catalog c⟩

set_option maxRecDepth 100000 in
theorem claim_C1_witness :
    0 < recScore "lampara" pLampara ∧
      (recommendProductsForQueryText "lampara" [pLampara]).length ≤ 4 :=
  ⟨(claim_C1 "lampara" [pLampara]).2.1 pLampara (by with_unfolding_all decide),
   (claim_C1 "lampara" [pLampara]).1⟩

/-- C3: a product is eligible for recommend output only if its `available`
field is absent/falsy or equals the literal `"Disponible"`: for every query,
a product whose `available` field holds any other non-empty value never
appears in the result of `recommendProductsForQueryText`;
`findBestProductMatchForText`, by contrast, does not apply this filter and
can still return such a product (witnessed concretely by the out-of-stock
`pTaladro`). -/
theorem claim_C3 :
    (∀ (query : String) (catalog : List Product) (p : Product),
      p ∈ recommendProductsForQueryText query catalog →
      p.available = "" ∨ p.available = "Disponible") ∧
    (findBestProductMatchForText "taladro" [pTaladro] = some pTaladro ∧
      pTaladro.available ≠ "" ∧ pTaladro.available ≠ "Disponible") :=
  ⟨fun _ _ _ hp => (recommend_mem_facts hp).2.2,
   by decide, by decide, by decide⟩

set_option maxRecDepth 100000 in
theorem claim_C3_witness :
    pLampara.available = "" ∨ pLampara.available = "Disponible" :=
  claim_C3.1 "lampara" [pLampara] pLampara (by with_unfolding_all decide)

/-- C4: `findBestProductMatchForText` tokenizes the query by whitespace
into non-empty lowercase words and scores each product as 3 times the count
of tokens occurring as substrings of the product name plus 1 times the
count of tokens occurring as substrings of `name + " " + desc`; it returns
the product with the strictly highest nonzero score, keeps the first-seen
product on ties (first-max semantics: every earlier product scores strictly
less, every later product scores no more), and returns none exactly when
every product scores 0. -/
theorem claim_C4 (text : String) (catalog : List Product) :
    (∀ p : Product, matchScore text p =
      3 * ((tokenize (toLowerJS text)).countP (containsStr (toLowerJS p.name)))
        + 1 * ((tokenize (toLowerJS text)).countP
            (containsStr (toLowerJS (p.name ++ " " ++ p.desc))))) ∧
    (findBestProductMatchForText text catalog = none ↔
      ∀ p ∈ catalog, matchScore text p = 0) ∧
    (∀ p : Product, findBestProductMatchForText text catalog = some p ↔
      ∃ l₁ l₂, catalog = l₁ ++ p :: l₂ ∧ 0 < matchScore text p ∧
        (∀ x ∈ l₁, matchScore text x < matchScore text p) ∧
        (∀ x ∈ l₂, matchScore text x ≤ matchScore text p)) :=
  ⟨fun p => matchScore_eq_counts text p,
   findBest_none_iff text catalog,
   fun p => findBest_some_iff text catalog p⟩

set_option maxRecDepth 100000 in
theorem claim_C4_witness :
    findBestProductMatchForText "taladro bosch" [pTaladro] = some pTaladro :=
  ((claim_C4 "taladro bosch" [pTaladro]).2.2 pTaladro).mpr
    ⟨[], [], rfl, by decide, by simp, by simp⟩

/-- C5 counterexample: the claim says the base score of 1 guarantees that
items matching no token are still included as candidates for the empty
query, and that `recommend("", C)` returns the top 4 of a non-empty `C`.
The non-empty catalog `[pNegPrice]` holds a single eligible product whose
price boost is `min(-5000/1000, 5) = -5`, so its empty-query score is
`1 - 5 = -4 ≤ 0`: it is dropped and the result is empty. -/
theorem claim_C5_counterexample :
    ([pNegPrice] : List Product) ≠ [] ∧ eligible pNegPrice = true ∧
    recommendProductsForQueryText "" [pNegPrice] = [] ∧
    pNegPrice ∉ recommendProductsForQueryText "" [pNegPrice] := by
  refine ⟨by simp, by decide, ?_, ?_⟩
  · with_unfolding_all decide
  · intro h
    rw [show recommendProductsForQueryText "" [pNegPrice] = [] from by with_unfolding_all decide] at h
    simp at h

theorem recScore_empty_query (p : Product) : recScore "" p = 1 + priceBoost p := by
  have h0 : tokenize (toLowerJS "") = [] := rfl
  have h1 : containsAny (toLowerJS "") lightKeywords = false := by decide
  have h2 : containsAny (toLowerJS "") plumbKeywords = false := by decide
  rw [recScore, h0, h1, h2]
  simp

/-- C5 (amended): on the empty query there are no tokens, so every
product's score is the base 1 plus its price boost (the domain boosts never
fire on the empty query); every eligible product with nonnegative price
boost is included as a candidate, the result is ranked by price boost
alone, and a non-empty catalog whose products are all eligible with
nonnegative price boost yields a non-empty result. -/
theorem claim_C5 (catalog : List Product) :
    tokenize (toLowerJS "") = [] ∧
    (∀ p : Product, recScore "" p = 1 + priceBoost p) ∧
    (∀ p ∈ catalog, eligible p = true → 0 ≤ priceBoost p →
      (p, recScore "" p) ∈ recCandidates "" catalog) ∧
    (recommendProductsForQueryText "" catalog).Pairwise
      (fun a b => priceBoost b ≤ priceBoost a) ∧
    (catalog ≠ [] → (∀ p ∈ catalog, eligible p = true ∧ 0 ≤ priceBoost p) →
      recommendProductsForQueryText "" catalog ≠ []) := by
  refine ⟨rfl, recScore_empty_query, ?_, ?_, ?_⟩
  · intro p hp he hb
    refine recCandidates_mem_of hp he ?_
    rw [recScore_empty_query]
    linarith
  · refine (recommend_pairwise "" catalog).imp ?_
    intro a b hab
    rw [recScore_empty_query, recScore_empty_query] at hab
    linarith
  · intro hne hall hcontra
    obtain ⟨p, rest, rfl⟩ := List.exists_cons_of_ne_nil hne
    have hp := (hall p (List.mem_cons_self p rest))
    have hmem := recCandidates_mem_of (q := "") (List.mem_cons_self p rest) hp.1
      (by rw [recScore_empty_query]; linarith [hp.2])
    rw [recommendProductsForQueryText] at hcontra
    have h1 := List.map_eq_nil_iff.mp hcontra
    rcases List.take_eq_nil_iff.mp h1 with h4 | h4
    · simp at h4
    · have hlen := (sortDesc_perm (recCandidates "" (p :: rest))).length_eq
      rw [h4] at hlen
      have hnil : recCandidates "" (p :: rest) = [] :=
        List.eq_nil_of_length_eq_zero hlen.symm
      rw [hnil] at hmem
      simp at hmem

set_option maxRecDepth 100000 in
theorem claim_C5_witness : recommendProductsForQueryText "" [pLampara] ≠ [] := by
  refine (claim_C5 [pLampara]).2.2.2.2 (by simp) ?_
  intro p hp
  rw [List.mem_singleton] at hp
  subst hp
  exact ⟨by decide, by with_unfolding_all decide⟩

/-! Claim theorems for the reply cascade. -/

/-- C2: `buildAssistantReplyForWhatsApp` is a deterministic rule cascade
evaluated in a fixed order with first match winning: (1) an empty or
whitespace-only message returns the fixed greeting; (2) a message whose
lowercased trim contains `"tablero"` without an installation-type qualifier
returns the clarifying question — for every catalog, in particular the
empty one; (3) otherwise an empty catalog returns the fixed no-products
message; (4) otherwise a message with availability keywords runs the best
match: a hit answers about stock (out-of-stock vs in-stock), a miss falls
through to rule 5; (5) otherwise the recommender runs on the trimmed
message, yielding the bulleted suggestion list or the generic fallback when
it recommends nothing. -/
theorem claim_C2 (fmt : ℚ → String) (message : String) (catalog : List Product) :
    (trimJS message = "" →
      buildAssistantReplyForWhatsApp fmt message catalog = greetingMsg) ∧
    (trimJS message ≠ "" →
      (containsStr (toLowerJS (trimJS message)) "tablero"
        && !containsAny (toLowerJS (trimJS message)) panelQualifierKeywords) = true →
      buildAssistantReplyForWhatsApp fmt message catalog = panelAskMsg ∧
      buildAssistantReplyForWhatsApp fmt message [] = panelAskMsg) ∧
    (trimJS message ≠ "" →
      (containsStr (toLowerJS (trimJS message)) "tablero"
        && !containsAny (toLowerJS (trimJS message)) panelQualifierKeywords) = false →
      catalog = [] →
      buildAssistantReplyForWhatsApp fmt message catalog = noProductsMsg) ∧
    (trimJS message ≠ "" →
      (containsStr (toLowerJS (trimJS message)) "tablero"
        && !containsAny (toLowerJS (trimJS message)) panelQualifierKeywords) = false →
      catalog ≠ [] →
      containsAny (toLowerJS (trimJS message)) availabilityKeywords = true →
      (∀ prod : Product,
        findBestProductMatchForText (trimJS message) catalog = some prod →
        buildAssistantReplyForWhatsApp fmt message catalog =
          (if prod.available ≠ "" && prod.available ≠ "Disponible" then
            outOfStockMsg fmt prod catalog
          else inStockMsg prod)) ∧
      (findBestProductMatchForText (trimJS message) catalog = none →
        buildAssistantReplyForWhatsApp fmt message catalog =
          recommendReply fmt (trimJS message) catalog)) ∧
    (trimJS message ≠ "" →
      (containsStr (toLowerJS (trimJS message)) "tablero"
        && !containsAny (toLowerJS (trimJS message)) panelQualifierKeywords) = false →
      catalog ≠ [] →
      containsAny (toLowerJS (trimJS message)) availabilityKeywords = false →
      buildAssistantReplyForWhatsApp fmt message catalog =
        recommendReply fmt (trimJS message) catalog) ∧
    (∀ (text : String) (ps : List Product),
      recommendReply fmt text ps =
        if (recommendProductsForQueryText text ps).isEmpty then notFoundMsg
        else suggestMsg fmt (recommendProductsForQueryText text ps)) := by
  refine ⟨?_, ?_, ?_, ?_, ?_, fun _ _ => rfl⟩
  · intro h0
    rw [buildAssistantReplyForWhatsApp, if_pos h0]
  · intro h0 h1
    constructor
    · rw [buildAssistantReplyForWhatsApp, if_neg h0, if_pos h1]
    · rw [buildAssistantReplyForWhatsApp, if_neg h0, if_pos h1]
  · intro h0 h1 h2
    rw [buildAssistantReplyForWhatsApp, if_neg h0, if_neg (by rw [h1]; exact Bool.false_ne_true),
      if_pos (by rw [h2]; rfl)]
  · intro h0 h1 h2 h3
    constructor
    · intro prod hprod
      rw [buildAssistantReplyForWhatsApp, if_neg h0, if_neg (by rw [h1]; exact Bool.false_ne_true),
        if_neg (by simpa using h2), if_pos h3, hprod]
    · intro hnone
      rw [buildAssistantReplyForWhatsApp, if_neg h0, if_neg (by rw [h1]; exact Bool.false_ne_true),
        if_neg (by simpa using h2), if_pos h3, hnone]
  · intro h0 h1 h2 h3
    rw [buildAssistantReplyForWhatsApp, if_neg h0, if_neg (by rw [h1]; exact Bool.false_ne_true),
      if_neg (by simpa using h2), if_neg (by rw [h3]; exact Bool.false_ne_true)]

set_option maxRecDepth 100000 in
theorem claim_C2_witness :
    buildAssistantReplyForWhatsApp (fun _ => "") "   " [] = greetingMsg :=
  (claim_C2 (fun _ => "") "   " []).1 (by decide)

/-- C10: in the out-of-stock branch of the reply cascade, the list of up to
4 alternatives recommended against the synthetic category+subcategory query
never contains the out-of-stock product that triggered the branch, nor any
other product whose `available` field is non-empty and different from
`"Disponible"`, because the alternatives come from
`recommendProductsForQueryText`, which filters such products out. -/
theorem claim_C10 (catalog : List Product) (prod : Product)
    (h1 : prod.available ≠ "") (h2 : prod.available ≠ "Disponible") :
    prod ∉ altRecommendations prod catalog ∧
    ∀ r ∈ altRecommendations prod catalog,
      r.available = "" ∨ r.available = "Disponible" := by
  constructor
  · intro hmem
    rw [altRecommendations] at hmem
    rcases (recommend_mem_facts hmem).2.2 with h | h
    · exact h1 h
    · exact h2 h
  · intro r hr
    rw [altRecommendations] at hr
    exact (recommend_mem_facts hr).2.2

set_option maxRecDepth 100000 in
theorem claim_C10_witness :
    pTaladro ∉ altRecommendations pTaladro [pTaladro, pLampara] :=
  (claim_C10 [pTaladro, pLampara] pTaladro (by decide) (by decide)).1

/-! Lemmas about the campaign ledger operations. -/

theorem updateSentCount_decomp (cid : String) (n : Nat) :
    ∀ (l₁ : List Campaign) {c : Campaign} (l₂ : List Campaign),
      (∀ x ∈ l₁, x.id ≠ cid) → c.id = cid →
      updateSentCount cid n (l₁ ++ c :: l₂) = l₁ ++ { c with sent := n } :: l₂
  | [], c, l₂, _, hc => by
    rw [List.nil_append, updateSentCount, if_pos hc, List.nil_append]
  | x :: l₁, c, l₂, h₁, hc => by
    rw [List.cons_append, updateSentCount, if_neg (h₁ x (List.mem_cons_self x l₁)),
      updateSentCount_decomp cid n l₁ l₂ (fun y hy => h₁ y (List.mem_cons_of_mem x hy)) hc,
      List.cons_append]

theorem sendLoopSentCount_eq_filter :
    ∀ (l : List (String × Bool)),
      sendLoopSentCount l = (l.filter (fun a => a.2)).length
  | [] => rfl
  | (e, ok) :: rest => by
    rw [sendLoopSentCount, sendLoopSentCount_eq_filter rest, List.filter_cons]
    by_cases h : ok
    · simp [h]
      omega
    · simp [h]

theorem sendLoopSentCount_append :
    ∀ (l₁ l₂ : List (String × Bool)),
      sendLoopSentCount (l₁ ++ l₂) = sendLoopSentCount l₁ + sendLoopSentCount l₂
  | [], l₂ => by rw [List.nil_append, sendLoopSentCount]; omega
  | (e, ok) :: rest, l₂ => by
    rw [List.cons_append, sendLoopSentCount, sendLoopSentCount,
      sendLoopSentCount_append rest l₂]
    omega

theorem updateSentCount_forall₂ (cid : String) (n : Nat) :
    ∀ (l : List Campaign),
      List.Forall₂ (fun a b => b = a ∨ (a.id = cid ∧ b = { a with sent := n }))
        l (updateSentCount cid n l)
  | [] => List.Forall₂.nil
  | c :: rest => by
    rw [updateSentCount]
    by_cases hc : c.id = cid
    · rw [if_pos hc]
      exact List.Forall₂.cons (Or.inr ⟨hc, rfl⟩)
        (List.forall₂_same.mpr (fun x _ => Or.inl rfl))
    · rw [if_neg hc]
      exact List.Forall₂.cons (Or.inl rfl) (updateSentCount_forall₂ cid n rest)

theorem lookup_setEntry (k v : String) :
    ∀ (m : List (String × String)), (setEntry k v m).lookup k = some v
  | [] => by simp [setEntry, List.lookup]
  | (k', v') :: rest => by
    rw [setEntry]
    by_cases h : k' = k
    · rw [if_pos h]
      simp [List.lookup]
    · rw [if_neg h]
      have hne : (k == k') = false := by
        simp [Ne.symm h]
      simp [List.lookup, hne, lookup_setEntry k v rest]

theorem stampOpen_id (email now : String) (c : Campaign) :
    (stampOpen email now c).id = c.id := by
  rw [stampOpen]
  by_cases h : truthyEntry c.opens email <;> simp [h]

theorem stampOpen_stampOpen {now₁ : String} (h : now₁ ≠ "") (email now₂ : String) (c : Campaign) :
    stampOpen email now₂ (stampOpen email now₁ c) = stampOpen email now₁ c := by
  by_cases h1 : truthyEntry c.opens email
  · have hinner : stampOpen email now₁ c = c := by rw [stampOpen, if_pos h1]
    rw [hinner, stampOpen, if_pos h1]
  · have hinner : stampOpen email now₁ c = { c with opens := setEntry email now₁ c.opens } := by
      rw [stampOpen, if_neg h1]
    have h2 : truthyEntry (setEntry email now₁ c.opens) email = true := by
      rw [truthyEntry, lookup_setEntry]
      simpa using h
    rw [hinner, stampOpen]
    simp [h2]

theorem trackOpenLedger_idem {now₁ : String} (h : now₁ ≠ "") (id email now₂ : String) :
    ∀ (ledger : List Campaign),
      trackOpenLedger id email now₂ (trackOpenLedger id email now₁ ledger) =
        trackOpenLedger id email now₁ ledger
  | [] => rfl
  | c :: rest => by
    by_cases hc : c.id = id
    · rw [trackOpenLedger, if_pos hc, trackOpenLedger,
        if_pos (by rw [stampOpen_id]; exact hc), stampOpen_stampOpen h]
    · rw [trackOpenLedger, if_neg hc, trackOpenLedger, if_neg hc,
        trackOpenLedger_idem h id email now₂ rest]

theorem trackOpenLedger_unknown (id email now : String) :
    ∀ {ledger : List Campaign}, (∀ c ∈ ledger, c.id ≠ id) →
      trackOpenLedger id email now ledger = ledger
  | [], _ => rfl
  | c :: rest, hall => by
    rw [trackOpenLedger, if_neg (hall c (List.mem_cons_self c rest)),
      trackOpenLedger_unknown id email now (fun x hx => hall x (List.mem_cons_of_mem c hx))]

theorem stampOpen_sent (email now : String) (c : Campaign) :
    (stampOpen email now c).sent = c.sent := by
  rw [stampOpen]
  by_cases h : truthyEntry c.opens email <;> simp [h]

theorem stampClick_sent (email now : String) (c : Campaign) :
    (stampClick email now c).sent = c.sent := by
  rw [stampClick]
  by_cases h : truthyEntry c.clicks email <;> simp [h]

theorem trackOpenLedger_sent (id email now : String) :
    ∀ (l : List Campaign),
      (trackOpenLedger id email now l).map Campaign.sent = l.map Campaign.sent
  | [] => rfl
  | c :: rest => by
    rw [trackOpenLedger]
    by_cases hc : c.id = id
    · rw [if_pos hc, List.map_cons, List.map_cons, stampOpen_sent]
    · rw [if_neg hc, List.map_cons, List.map_cons, trackOpenLedger_sent id email now rest]

theorem trackClickLedger_sent (id email now : String) :
    ∀ (l : List Campaign),
      (trackClickLedger id email now l).map Campaign.sent = l.map Campaign.sent
  | [] => rfl
  | c :: rest => by
    rw [trackClickLedger]
    by_cases hc : c.id = id
    · rw [if_pos hc, List.map_cons, List.map_cons, stampClick_sent]
    · rw [if_neg hc, List.map_cons, List.map_cons, trackClickLedger_sent id email now rest]

theorem toDigitsCore_ten_head :
    ∀ (fuel m : Nat) (ds : List Char),
      ∃ k rest, Nat.toDigitsCore 10 (fuel + 1) m ds = Nat.digitChar k :: rest ∧ k < 10
  | 0, m, ds => by
    rw [Nat.toDigitsCore]
    by_cases h : m / 10 = 0
    · rw [if_pos h]
      exact ⟨m % 10, ds, rfl, Nat.mod_lt m (by omega)⟩
    · rw [if_neg h, Nat.toDigitsCore]
      exact ⟨m % 10, ds, rfl, Nat.mod_lt m (by omega)⟩
  | fuel + 1, m, ds => by
    rw [Nat.toDigitsCore]
    by_cases h : m / 10 = 0
    · rw [if_pos h]
      exact ⟨m % 10, ds, rfl, Nat.mod_lt m (by omega)⟩
    · rw [if_neg h]
      exact toDigitsCore_ten_head fuel (m / 10) (Nat.digitChar (m % 10) :: ds)

theorem repr_head (n : Nat) :
    ∃ k rest, (Nat.repr n).data = Nat.digitChar k :: rest ∧ k < 10 := by
  have h : (Nat.repr n).data = Nat.toDigitsCore 10 (n + 1) n [] := rfl
  rw [h]
  exact toDigitsCore_ten_head n n []

theorem digitChar_ne_q {k : Nat} (hk : k < 10) : Nat.digitChar k ≠ 'q' := by
  interval_cases k <;> decide

theorem qr_id_ne_repr (s : String) (n : Nat) : "qr-" ++ s ≠ Nat.repr n := by
  intro h
  obtain ⟨k, rest, hd, hk⟩ := repr_head n
  have hdata : ("qr-" ++ s).data = (Nat.repr n).data := by rw [h]
  rw [hd, String.data_append] at hdata
  have hq : ('q' : Char) = Nat.digitChar k := by
    have := congrArg (fun l => l.head?) hdata
    simpa using this
  exact digitChar_ne_q hk hq.symm

/-! Claim theorems for the campaign ledger. -/

/-- C6: when a bulk campaign is created and the custom SMTP connectivity
probe fails, the operation is atomic-on-error: the newly created record is
first unshifted onto the ledger, and the catch block removes every record
carrying the new campaign id from whatever ledger it re-reads (in
particular, re-reading the just-written ledger restores the original one
whenever the fresh id is genuinely new), while the caller receives the
error response carrying the provider-reported detail. -/
theorem claim_C6 (subject pdfUrl : String) (emails : List String) (nowMs : Nat)
    (nowIso : String) (ledger : List Campaign) (e : SmtpFailure)
    (hs : subject ≠ "") (hp : pdfUrl ≠ "") (he : emails ≠ []) :
    campaignSendStart subject pdfUrl emails nowMs nowIso ledger =
      .ok (mkBulkCampaign subject pdfUrl emails.length nowMs nowIso,
        mkBulkCampaign subject pdfUrl emails.length nowMs nowIso :: ledger) ∧
    (∀ current : List Campaign,
      (campaignSendVerifyCatch (mkBulkCampaign subject pdfUrl emails.length nowMs nowIso).id
          e current).2 = .smtpError e.message e.response ∧
      (∀ x ∈ (campaignSendVerifyCatch (mkBulkCampaign subject pdfUrl emails.length nowMs nowIso).id
          e current).1,
        x.id ≠ (mkBulkCampaign subject pdfUrl emails.length nowMs nowIso).id) ∧
      mkBulkCampaign subject pdfUrl emails.length nowMs nowIso ∉
        (campaignSendVerifyCatch (mkBulkCampaign subject pdfUrl emails.length nowMs nowIso).id
          e current).1) ∧
    ((∀ x ∈ ledger, x.id ≠ (mkBulkCampaign subject pdfUrl emails.length nowMs nowIso).id) →
      (campaignSendVerifyCatch (mkBulkCampaign subject pdfUrl emails.length nowMs nowIso).id e
        (mkBulkCampaign subject pdfUrl emails.length nowMs nowIso :: ledger)).1 = ledger) := by
  refine ⟨?_, ?_, ?_⟩
  · rw [campaignSendStart, if_neg]
    intro hcases
    rcases hcases with h | h | h
    · exact hs h
    · exact hp h
    · exact he h
  · intro current
    refine ⟨rfl, ?_, ?_⟩
    · intro x hx
      simpa using List.of_mem_filter hx
    · intro hc
      have := List.of_mem_filter hc
      simp at this
  · intro hall
    rw [campaignSendVerifyCatch]
    simp only [List.filter_cons]
    rw [if_neg (by simp)]
    exact List.filter_eq_self.mpr (fun x hx => by simpa using hall x hx)

set_option maxRecDepth 100000 in
theorem claim_C6_witness :
    (campaignSendVerifyCatch
      (mkBulkCampaign "Lista" "u.pdf" 1 7 "iso").id
      { message := "connect ECONNREFUSED", response := "550" }
      (mkBulkCampaign "Lista" "u.pdf" 1 7 "iso" :: [])).1 = [] :=
  (claim_C6 "Lista" "u.pdf" ["ana@x"] 7 "iso" []
    { message := "connect ECONNREFUSED", response := "550" }
    (by decide) (by decide) (by simp)).2.2 (by simp)

/-- C7: after the per-recipient send loop completes, the final write is
applied to the freshly re-read ledger (an arbitrary `l₁ ++ c :: l₂`,
reflecting any tracking writes made during the loop) and sets the matching
campaign's `sent` counter to exactly the number of recipients whose send
attempt did not error; a failing recipient is skipped and the recipients
after it are still counted. -/
theorem claim_C7 (campaignId : String) (attempts : List (String × Bool))
    (l₁ : List Campaign) (c : Campaign) (l₂ : List Campaign)
    (h₁ : ∀ x ∈ l₁, x.id ≠ campaignId) (hc : c.id = campaignId) :
    campaignSendFinish campaignId attempts (l₁ ++ c :: l₂) =
      l₁ ++ { c with sent := sendLoopSentCount attempts } :: l₂ ∧
    sendLoopSentCount attempts = (attempts.filter (fun a => a.2)).length ∧
    (∀ (pre post : List (String × Bool)) (email : String),
      sendLoopSentCount (pre ++ (email, false) :: post) =
        sendLoopSentCount pre + sendLoopSentCount post) := by
  refine ⟨updateSentCount_decomp campaignId _ l₁ l₂ h₁ hc,
    sendLoopSentCount_eq_filter attempts, ?_⟩
  intro pre post email
  rw [sendLoopSentCount_append, sendLoopSentCount]
  simp

/-- Concrete run of the C7 theorem: sending to 3 recipients where the 2nd
transport call fails yields `sent = 2` (the pending campaign's id is
`Nat.repr 1`, that is `"1"`). -/
theorem claim_C7_witness :
    campaignSendFinish "1" [("ana@x", true), ("bob@x", false), ("eva@x", true)]
      [mkBulkCampaign "Lista" "u.pdf" 3 1 "iso"] =
      [{ mkBulkCampaign "Lista" "u.pdf" 3 1 "iso" with sent := 2 }] := by
  have h := (claim_C7 "1" [("ana@x", true), ("bob@x", false), ("eva@x", true)]
    [] (mkBulkCampaign "Lista" "u.pdf" 3 1 "iso") [] (by simp) rfl).1
  simpa using h

/-- C8: `recordOpen(id, email)` is idempotent beyond the first call: a
second call with the same pair leaves the persisted ledger unchanged and
returns the same fixed 1×1 transparent image; moreover the pixel is
returned for every id, and an unknown campaign id silently leaves the
ledger untouched. -/
theorem claim_C8 (id email now₁ now₂ : String) (ledger : List Campaign)
    (h : now₁ ≠ "") :
    trackOpen id email now₂ (trackOpen id email now₁ ledger).1 =
      ((trackOpen id email now₁ ledger).1, pixelGifBase64) ∧
    (trackOpen id email now₁ ledger).2 = pixelGifBase64 ∧
    ((∀ c ∈ ledger, c.id ≠ id) → (trackOpen id email now₁ ledger).1 = ledger) := by
  refine ⟨?_, rfl, ?_⟩
  · rw [trackOpen, trackOpen, trackOpenLedger_idem h]
  · intro hall
    rw [trackOpen]
    exact trackOpenLedger_unknown id email now₁ hall

set_option maxRecDepth 100000 in
theorem claim_C8_witness :
    trackOpen "1" "ana@x" "t2" (trackOpen "1" "ana@x" "t1" [mkBulkCampaign "Lista" "u.pdf" 3 1 "iso"]).1 =
      ((trackOpen "1" "ana@x" "t1" [mkBulkCampaign "Lista" "u.pdf" 3 1 "iso"]).1, pixelGifBase64) :=
  (claim_C8 "1" "ana@x" "t1" "t2" [mkBulkCampaign "Lista" "u.pdf" 3 1 "iso"] (by decide)).1

/-- C9: a QR/public campaign is created with `total = 0` (and `sent = 0`,
marked `type = "qr"`); visiting its public go link redirects to the
download landing page carrying the campaign id and the campaign's pdf URL
as query parameters while returning the ledger unchanged; and its `sent`
counter is never incremented by any ledger operation: its `"qr-"`-prefixed
id differs from every bulk campaign id (`Nat.repr` of a clock value), the
final send-loop write only rewrites records whose id matches the bulk id,
the tracking endpoints never change any `sent` field, and the SMTP rollback
only removes records. -/
theorem claim_C9 (subject pdfUrl baseUrl : String) (nowMs : Nat) (nowIso : String)
    (ledger : List Campaign) (enc : String → String)
    (hs : subject ≠ "") (hp : pdfUrl ≠ "") :
    campaignPublic subject pdfUrl baseUrl nowMs nowIso ledger =
      (mkQrCampaign subject pdfUrl nowMs nowIso :: ledger,
        .created (mkQrCampaign subject pdfUrl nowMs nowIso).id
          (baseUrl ++ "/api/public/go/" ++ (mkQrCampaign subject pdfUrl nowMs nowIso).id)) ∧
    (mkQrCampaign subject pdfUrl nowMs nowIso).total = 0 ∧
    (mkQrCampaign subject pdfUrl nowMs nowIso).sent = 0 ∧
    (mkQrCampaign subject pdfUrl nowMs nowIso).type = some "qr" ∧
    publicGo enc (mkQrCampaign subject pdfUrl nowMs nowIso).id
        (mkQrCampaign subject pdfUrl nowMs nowIso :: ledger) =
      (mkQrCampaign subject pdfUrl nowMs nowIso :: ledger,
        .redirect ("/download.html?cid=" ++ enc (mkQrCampaign subject pdfUrl nowMs nowIso).id
          ++ "&pdf=" ++ enc pdfUrl)) ∧
    (∀ bulkMs : Nat, (mkQrCampaign subject pdfUrl nowMs nowIso).id ≠ Nat.repr bulkMs) ∧
    (∀ (cid : String) (n : Nat) (l : List Campaign),
      List.Forall₂ (fun a b => b = a ∨ (a.id = cid ∧ b = { a with sent := n }))
        l (updateSentCount cid n l)) ∧
    (∀ (id' email now : String) (l : List Campaign),
      (trackOpenLedger id' email now l).map Campaign.sent = l.map Campaign.sent ∧
      (trackClickLedger id' email now l).map Campaign.sent = l.map Campaign.sent) ∧
    (∀ (cid : String) (e : SmtpFailure) (l : List Campaign),
      ∀ x ∈ (campaignSendVerifyCatch cid e l).1, x ∈ l) := by
  refine ⟨?_, rfl, rfl, rfl, ?_, ?_, updateSentCount_forall₂, ?_, ?_⟩
  · rw [campaignPublic, if_neg]
    intro hcases
    rcases hcases with h | h
    · exact hs h
    · exact hp h
  · rw [publicGo]
    rw [List.find?_cons_of_pos _ (by simp)]
    rfl
  · intro bulkMs
    exact qr_id_ne_repr (Nat.repr nowMs) bulkMs
  · intro id' email now l
    exact ⟨trackOpenLedger_sent id' email now l, trackClickLedger_sent id' email now l⟩
  · intro cid e l x hx
    exact List.mem_of_mem_filter hx

set_option maxRecDepth 100000 in
theorem claim_C9_witness :
    (mkQrCampaign "Lista" "u.pdf" 5 "iso").total = 0 ∧
    (mkQrCampaign "Lista" "u.pdf" 5 "iso").id ≠ Nat.repr 5 :=
  ⟨(claim_C9 "Lista" "u.pdf" "http://x" 5 "iso" [] (fun s => s) (by decide) (by decide)).2.1,
   (claim_C9 "Lista" "u.pdf" "http://x" 5 "iso" [] (fun s => s) (by decide)
     (by decide)).2.2.2.2.2.1 5⟩

end Embair
